import Mathlib

/-!
# coredns-etcd: naming codec, resolver, record store and election engine

A shallow embedding of the Go package `etcd` (files `plugin.go`, `dns.go`,
`election.go`) and theorems about it.

Conventions of the embedding.

* A Go string is a list of characters (`Str`), one `Char` per rune of a valid
  UTF-8 string.  `strings.TrimSuffix`, `strings.TrimPrefix` and
  `strings.ToLower` are defined on it; the rune table of `unicode.ToLower` is
  a parameter `lower : Char → Char`, instantiated with the ASCII table
  `Char.toLower` wherever a concrete input is evaluated.
* A Go `error` is a value of `Error`; a nil error is `none`.
* Calls into the etcd client are explicit: the range read of `lookup` is a
  function argument, writes go through a `Store` state with a fault schedule,
  and the election primitives are the fields of `ElectionEnv`.  Functions with
  effects return the new state or the trace of calls they issued.
* The mutex of `AppendRecords` is not modelled: the embedding is sequential.
-/

namespace Etcd

/-! ## Strings -/

/-- Go `string`: the list of its runes. -/
abbrev Str := List Char

/-- Go `strings.HasSuffix`. -/
def hasSuffix (s suffix : Str) : Bool := suffix.isSuffixOf s

/-- Go `strings.HasPrefix`. -/
def hasPrefix (s pre : Str) : Bool := pre.isPrefixOf s

/-- Go `strings.TrimSuffix`: `s` without the trailing `suffix`, or `s` itself
when it does not end in `suffix`. -/
def trimSuffix (s suffix : Str) : Str :=
  if hasSuffix s suffix then s.take (s.length - suffix.length) else s

/-- Go `strings.TrimPrefix`: `s` without the leading `pre`, or `s` itself when
it does not start with `pre`. -/
def trimPrefix (s pre : Str) : Str :=
  if hasPrefix s pre then s.drop pre.length else s

/-- Go `strings.ToLower`: every rune mapped through the lower-case table. -/
def toLower (lower : Char → Char) (s : Str) : Str := s.map lower

/-- The string `"."`. -/
def dot : Str := ['.']

/-! ## Errors and DNS constants -/

/-- Go `error` values built by the package. -/
inductive Error where
  /-- `errors.New(text)`, also an error reported by a library. -/
  | msg (text : String)
  /-- `fmt.Errorf("text: %w", cause)` and `errors.Wrap(cause, text)`. -/
  | wrap (text : String) (cause : Error)
  /-- `fmt.Errorf("text: %s", arg)`. -/
  | fmtStr (text : String) (arg : Str)
  /-- `fmt.Errorf("text: %v", n)`. -/
  | fmtNum (text : String) (n : Nat)
  deriving DecidableEq, Repr

/-- The type `dns.Type` (a 16-bit number). -/
abbrev DnsType := Nat

/-- Zero value of `dns.Type`. -/
def TypeNone : DnsType := 0
/-- Constant `dns.TypeA`. -/
def TypeA : DnsType := 1
/-- Constant `dns.TypeCNAME`. -/
def TypeCNAME : DnsType := 5
/-- Constant `dns.TypeTXT`. -/
def TypeTXT : DnsType := 16
/-- Constant `dns.ClassINET`. -/
def ClassINET : Nat := 1
/-- Constant `dns.RcodeSuccess`. -/
def RcodeSuccess : Nat := 0
/-- Constant `dns.RcodeServerFailure`. -/
def RcodeServerFailure : Nat := 2
/-- Constant `dns.RcodeNotImplemented`. -/
def RcodeNotImplemented : Nat := 4
/-- Constant `ttl` of `plugin.go`. -/
def ttl : Nat := 604800

/-! ## Plugin and the naming codec -/

/-- The `Plugin` struct: the configured zone, key prefix (field `prefix` of the
source) and separator.  The client and the mutex are not data of the model. -/
structure Plugin where
  zone : Str
  pfx : Str
  separator : Str
  deriving DecidableEq, Repr

/-- The record `libdns.RR` as returned by `rec.RR()`: `Name`, `TTL` (a
`time.Duration`, in nanoseconds), `Type` (field `Typ`) and `Data`. -/
structure RR where
  Name : Str
  TTL : Int
  Typ : Str
  Data : Str
  deriving DecidableEq, Repr

/-- `Plugin.fullName` (dns.go): the store key of a record. -/
def fullName (p : Plugin) (zone : Str) (rec : RR) : Str :=
  p.pfx ++ p.separator ++
    trimSuffix zone dot ++ p.separator ++
    rec.Name ++ p.separator ++
    rec.Typ

/-- The local `name` of `Plugin.lookup`: the query name without the zone
suffix and without a trailing dot. -/
def lookupName (qname zone : Str) : Str :=
  trimSuffix (trimSuffix qname zone) dot

/-- The local `fullname` of `Plugin.lookup`: the lower-cased scan prefix. -/
def lookupFullname (lower : Char → Char) (p : Plugin) (qname zone : Str) : Str :=
  toLower lower
    (p.pfx ++ p.separator ++
      trimSuffix zone dot ++ p.separator ++
      lookupName qname zone ++ p.separator)

/-! ## Resolver -/

/-- A key-value pair of a range response (`mvccpb.KeyValue`): key, value and
the attached lease (0 when there is none). -/
structure KeyValue where
  Key : Str
  Value : Str
  Lease : Nat
  deriving DecidableEq, Repr

/-- The triple `(string, dns.Type, error)` returned by `Plugin.lookup`. -/
structure LookupResult where
  value : Str
  typ : DnsType
  err : Option Error
  deriving DecidableEq, Repr

/-- The type switch of `Plugin.lookup` on the key suffix `tp`, for the value
`v` of the matched key. -/
def dispatch (zone v tp : Str) : LookupResult :=
  if tp = "A".toList then ⟨v, TypeA, none⟩
  else if tp = "CNAME".toList then ⟨v ++ dot ++ zone, TypeCNAME, none⟩
  else if tp = "TXT".toList then ⟨v, TypeTXT, none⟩
  else ⟨[], TypeNone, some (.fmtStr "unsupported record type" tp)⟩

/-- `Plugin.lookup` (plugin.go).  `get` is the call
`kvc.Get(ctx, fullname, etcd.WithPrefix())`: the key-value pairs under a key
prefix, or an error. -/
def lookup (lower : Char → Char) (p : Plugin)
    (get : Str → Except Error (List KeyValue)) (qname zone : Str) : LookupResult :=
  let fullname := lookupFullname lower p qname zone
  match get fullname with
  | .error err => ⟨[], TypeNone, some (.wrap "could not get DNS name" err)⟩
  | .ok kvs =>
    match kvs with
    | [kv] => dispatch zone kv.Value (trimPrefix kv.Key fullname)
    | _ => ⟨[], TypeNone, some (.msg "unexpected number of records")⟩

/-! ## Query handler -/

/-- The header `dns.RR_Header` of an answer record. -/
structure Header where
  Name : Str
  Ttl : Nat
  Class : Nat
  Rrtype : DnsType
  deriving DecidableEq, Repr

/-- An answer record.  The address of an `A` record is kept as the text `s`
it is parsed from, standing for `net.ParseIP(s).To4()`. -/
inductive Answer where
  | A (Hdr : Header) (A : Str)
  | CNAME (Hdr : Header) (Target : Str)
  | TXT (Hdr : Header) (Txt : List Str)
  deriving DecidableEq, Repr

/-- The reply `m` handed to `SizeAndDo`, `Scrub` and `w.WriteMsg`: its flags
and its answer section. -/
structure Msg where
  Authoritative : Bool
  RecursionAvailable : Bool
  Compress : Bool
  Answer : List Answer
  deriving DecidableEq, Repr

/-- The question of a request: `req.QName()` and `req.QType()`. -/
structure Question where
  qname : Str
  qtype : DnsType
  deriving DecidableEq, Repr

/-- What a handler returns, `(int, error)`, with the messages it wrote to the
response writer. -/
structure ServeResult where
  rcode : Nat
  err : Option Error
  written : List Msg
  deriving DecidableEq, Repr

/-- The reply `m` of `ServeDNS` (`m.SetReply(r)` with the three flags set)
carrying the given answer section. -/
def reply (answer : List Answer) : Msg :=
  { Authoritative := true, RecursionAvailable := true, Compress := true, Answer := answer }

/-- `Plugin.ServeDNS` (plugin.go).  `zoneMatches` is
`plugin.Zones([]string{p.zone}).Matches(qname)` (the matched zone, or the
empty string), `next` is the outcome of
`plugin.NextOrFailure(p.Name(), p.Next, ctx, w, r)`, and `get` is the range
read of the etcd client. -/
def ServeDNS (lower : Char → Char) (p : Plugin) (zoneMatches : Str → Str → Str)
    (next : ServeResult) (get : Str → Except Error (List KeyValue))
    (req : Question) : ServeResult :=
  let qname := req.qname
  let zone := zoneMatches p.zone qname
  if zone = [] then next
  else
    let r := lookup lower p get qname zone
    match r.err with
    | some _ => next
    | none =>
      let rname := r.value
      let t := r.typ
      if t = TypeA then
        let m := reply [.A ⟨qname, ttl, ClassINET, TypeA⟩ rname]
        ⟨RcodeSuccess, none, if m.Answer.length > 0 then [m] else []⟩
      else if t = TypeCNAME then
        let r2 := lookup lower p get rname zone
        match r2.err with
        | some err =>
          ⟨RcodeServerFailure, some (.wrap "unable to lookup name on etcd" err), []⟩
        | none =>
          let rrname := r2.value
          let m := reply [.CNAME ⟨qname, ttl, ClassINET, TypeCNAME⟩ rname,
                          .A ⟨rname, ttl, ClassINET, TypeA⟩ rrname]
          ⟨RcodeSuccess, none, if m.Answer.length > 0 then [m] else []⟩
      else if t = TypeTXT then
        let m := reply [.TXT ⟨qname, ttl, ClassINET, TypeTXT⟩ [rname]]
        ⟨RcodeSuccess, none, if m.Answer.length > 0 then [m] else []⟩
      else
        ⟨RcodeNotImplemented, some (.fmtNum "unsupported query type" req.qtype), []⟩

/-! ## Record store -/

/-- A request sent to the store by the record store. -/
inductive Request where
  /-- `Lease.Grant(ctx, ttl)`. -/
  | grant (seconds : Int)
  /-- `KV.Put(ctx, key, val)`, with `etcd.WithLease(lease)` when `lease ≠ 0`. -/
  | put (key val : Str) (lease : Nat)
  deriving DecidableEq, Repr

/-- The state of the etcd store seen through the client: its key-value pairs,
the next lease identifier it will issue, and the log of the requests it has
received with their outcome (`true`: served, `false`: answered with an error).
The log is ghost state: no operation reads it. -/
structure Store where
  kvs : List KeyValue
  nextLease : Nat
  log : List (Request × Bool)
  deriving DecidableEq, Repr

/-- What the record store calls outside this package.  `fails n` is the error,
if any, with which the store answers the request it receives after `n`
earlier ones; a request answered with an error leaves the key-value pairs
unchanged.  `parse` is `rec.RR().Parse()` followed by `RR()` on the result.
`seconds` is `int64(d.Seconds())` on a `time.Duration` (a floating-point
conversion, kept abstract). -/
structure Env where
  fails : Nat → Option Error
  parse : RR → Except Error RR
  seconds : Int → Int

/-- The key-value pairs after a put: the pair replaces the one with the same
key, if any. -/
def upsert (kvs : List KeyValue) (kv : KeyValue) : List KeyValue :=
  kvs.filter (fun x => x.Key ≠ kv.Key) ++ [kv]

/-- `etcd.NewLease(p.client).Grant(ctx, seconds)`: the new state and the
identifier of the lease, or an error. -/
def Store.grant (env : Env) (s : Store) (seconds : Int) : Store × Except Error Nat :=
  match env.fails s.log.length with
  | some e => ({ s with log := s.log ++ [(.grant seconds, false)] }, .error e)
  | none =>
    ({ s with nextLease := s.nextLease + 1, log := s.log ++ [(.grant seconds, true)] },
      .ok s.nextLease)

/-- `p.client.KV.Put(ctx, key, val, opts...)`: the new state and the error. -/
def Store.put (env : Env) (s : Store) (key val : Str) (lease : Nat) : Store × Option Error :=
  match env.fails s.log.length with
  | some e => ({ s with log := s.log ++ [(.put key val lease, false)] }, some e)
  | none =>
    ({ s with kvs := upsert s.kvs ⟨key, val, lease⟩,
              log := s.log ++ [(.put key val lease, true)] }, none)

/-- The pairs of the store whose key starts with `pre`.  (etcd returns them
sorted by key; `lookup` reads the response only when it holds one pair, so the
order is left as stored.) -/
def Store.range (s : Store) (pre : Str) : List KeyValue :=
  s.kvs.filter (fun kv => hasPrefix kv.Key pre)

/-- `kvc.Get(ctx, pre, etcd.WithPrefix())` on a reachable store: the pairs whose
key starts with `pre`. -/
def Store.get (s : Store) (pre : Str) : Except Error (List KeyValue) :=
  .ok (s.range pre)

/-- The put that ends the body of the loop of `AppendRecords`, for the parsed
record `rec` and the lease option (`0`: none). -/
def putRecord (env : Env) (p : Plugin) (zone : Str) (s : Store) (rec : RR) (lease : Nat) :
    Store × Option Error :=
  match s.put env (fullName p zone rec) rec.Data lease with
  | (s1, some err) => (s1, some (.wrap "error putting record in etcd" err))
  | (s1, none) => (s1, none)

/-- One iteration of the loop of `AppendRecords`: parse, grant a lease when
the TTL is positive, put. -/
def appendRecord (env : Env) (p : Plugin) (zone : Str) (s : Store) (rec : RR) :
    Store × Option Error :=
  match env.parse rec with
  | .error err => (s, some (.wrap "error parsing record" err))
  | .ok rec =>
    if rec.TTL > 0 then
      match s.grant env (env.seconds rec.TTL) with
      | (s1, .error err) => (s1, some (.wrap "error granting lease" err))
      | (s1, .ok lease) => putRecord env p zone s1 rec lease
    else putRecord env p zone s rec 0

/-- The loop of `AppendRecords`: it returns at the first error. -/
def appendLoop (env : Env) (p : Plugin) (zone : Str) (s : Store) :
    List RR → Store × Option Error
  | [] => (s, none)
  | rec :: rest =>
    match appendRecord env p zone s rec with
    | (s1, some err) => (s1, some err)
    | (s1, none) => appendLoop env p zone s1 rest

/-- The outcome of `AppendRecords`: the store afterwards and the returned pair
`([]libdns.Record, error)`, a nil slice being the empty list. -/
structure AppendResult where
  store : Store
  recs : List RR
  err : Option Error

/-- `Plugin.AppendRecords` (dns.go). -/
def AppendRecords (env : Env) (p : Plugin) (zone : Str) (s : Store) (recs : List RR) :
    AppendResult :=
  match appendLoop env p zone s recs with
  | (s1, some err) => ⟨s1, [], some err⟩
  | (s1, none) => ⟨s1, recs, none⟩

/-- The requests a store received between state `s` and a later state `t`. -/
def callsSince (s t : Store) : List (Request × Bool) := t.log.drop s.log.length

/-- The `(key, value)` of the put requests of a log, served or not. -/
def putsIssued (log : List (Request × Bool)) : List (Str × Str) :=
  log.filterMap fun c =>
    match c with
    | (.put k v _, _) => some (k, v)
    | _ => none

/-- The pairs written by the put requests of a log that were served. -/
def putsApplied (log : List (Request × Bool)) : List KeyValue :=
  log.filterMap fun c =>
    match c with
    | (.put k v l, true) => some ⟨k, v, l⟩
    | _ => none

/-! ## Election engine -/

/-- The type `Callback`: the error the callback returns when invoked. -/
abbrev Callback := Unit → Option Error

/-- The struct `electionConfig` (field `pfx` is `prefix` in the source). -/
structure electionConfig where
  pfx : Str
  proposal : Str
  cb : Option Callback

/-- The type `ElectionOption`: a setter, as the update it performs. -/
abbrev ElectionOption := electionConfig → electionConfig

/-- The error `ErrPrefixNotSet`. -/
def ErrPrefixNotSet : Error := .msg "election prefix must be set"

/-- The error `ErrProposalNotSet`. -/
def ErrProposalNotSet : Error := .msg "election proposal must be set"

/-- `WithElection`. -/
def WithElection (name : Str) : ElectionOption := fun e => { e with pfx := name }

/-- `WithProposal`. -/
def WithProposal (proposal : Str) : ElectionOption := fun e => { e with proposal := proposal }

/-- `WithCallback`; a nil callback is `none`. -/
def WithCallback (cb : Option Callback) : ElectionOption := fun e => { e with cb := cb }

/-- Which arm of the `select` of `Campaign` fires. -/
inductive Wake where
  | ctxDone
  | sessionDone
  deriving DecidableEq, Repr

/-- The calls `Campaign` issues, in a trace. -/
inductive Event where
  /-- `concurrency.NewSession(p.client)`. -/
  | newSession
  /-- `e.Campaign(ctx, proposal)` on the election of the given prefix. -/
  | campaign (pfx proposal : Str)
  /-- `cfg.cb(ctx)`. -/
  | callback
  /-- The `select` on `ctx.Done()` and `session.Done()`. -/
  | wait
  /-- `e.Resign(ctx)`. -/
  | resign
  deriving DecidableEq, Repr

/-- The outcomes of the calls `Campaign` makes into the etcd client: the error
of each (none: success) and the arm of the `select` that fires. -/
structure ElectionEnv where
  newSession : Option Error
  campaign : Str → Str → Option Error
  wake : Wake
  resign : Option Error

/-- The zero value of `electionConfig`. -/
def electionConfig.zero : electionConfig := { pfx := [], proposal := [], cb := none }

/-- The configuration after the loop over the setters. -/
def applySetters (setters : List ElectionOption) : electionConfig :=
  setters.foldl (fun cfg setter => setter cfg) electionConfig.zero

/-- The end of `Campaign`, from the `select` on: wait, then resign unless the
session expired.  `tr` is the trace so far. -/
def waitAndResign (env : ElectionEnv) (tr : List Event) : Option Error × List Event :=
  match env.wake with
  | .sessionDone => (some (.msg "elect: session expired"), tr ++ [.wait])
  | .ctxDone =>
    match env.resign with
    | some err => (some (.wrap "error resigning from election" err), tr ++ [.wait, .resign])
    | none => (none, tr ++ [.wait, .resign])

/-- `Plugin.Campaign` (election.go): the returned error and the trace of the
calls issued, in order. -/
def Campaign (env : ElectionEnv) (setters : List ElectionOption) : Option Error × List Event :=
  let cfg := applySetters setters
  if cfg.pfx = [] then (some ErrPrefixNotSet, [])
  else if cfg.proposal = [] then (some ErrProposalNotSet, [])
  else
    match env.newSession with
    | some err => (some (.wrap "error creating etcd concurrency session" err), [.newSession])
    | none =>
      match env.campaign cfg.pfx cfg.proposal with
      | some err =>
        (some (.wrap "error campaigning for election" err),
          [.newSession, .campaign cfg.pfx cfg.proposal])
      | none =>
        match cfg.cb with
        | some cb =>
          match cb () with
          | some err =>
            (some (.wrap "error executing callback after winning election" err),
              [.newSession, .campaign cfg.pfx cfg.proposal, .callback])
          | none =>
            waitAndResign env [.newSession, .campaign cfg.pfx cfg.proposal, .callback]
        | none => waitAndResign env [.newSession, .campaign cfg.pfx cfg.proposal]

/-! ## Concrete inputs -/

/-- A plugin configured with prefix `/dns` and separator `/`. -/
def examplePlugin : Plugin :=
  { zone := "example.com.".toList, pfx := "/dns".toList, separator := "/".toList }

/-- A store holding the given pairs, with an empty log. -/
def storeOf (kvs : List KeyValue) : Store := { kvs := kvs, nextLease := 1, log := [] }

/-- An instance of `Zones.Matches` on ASCII names: the zone when the
lower-cased query name ends in the lower-cased zone, else the empty string. -/
def asciiMatches (zone qname : Str) : Str :=
  if hasSuffix (toLower Char.toLower qname) (toLower Char.toLower zone) then zone else []

/-- An instance of `Env`: a record parses to itself unless its data is empty,
a duration converts to whole seconds, and the store answers its requests as
the fault schedule `fails` says. -/
def exampleEnv (fails : Nat → Option Error) : Env :=
  { fails := fails
    parse := fun r => if r.Data = [] then .error (.msg "empty record data") else .ok r
    seconds := fun d => d / 1000000000 }

/-- The `A` record `name → data` with no TTL. -/
def recordA (name data : String) : RR := ⟨name.toList, 0, "A".toList, data.toList⟩

/-- The campaign call of a trace succeeded: the call is in the trace and the
store answered it without error. -/
def campaignSucceeded (env : ElectionEnv) (tr : List Event) : Bool :=
  tr.any fun ev =>
    match ev with
    | .campaign pfx proposal => (env.campaign pfx proposal).isNone
    | _ => false

/-- An instance of `ElectionEnv`: the session opens, the campaign is won, the
context is cancelled and the resignation succeeds. -/
def exampleElectionEnv : ElectionEnv :=
  { newSession := none, campaign := fun _ _ => none, wake := .ctxDone, resign := none }

/-! ## Lemmas on strings -/

theorem hasSuffix_append (a b : Str) : hasSuffix (a ++ b) b = true := by
  simp [hasSuffix]

theorem hasPrefix_append (a b : Str) : hasPrefix (a ++ b) a = true := by
  simp [hasPrefix]

theorem hasPrefix_iff (s pre : Str) : hasPrefix s pre = true ↔ pre <+: s := by
  simp [hasPrefix]

theorem trimSuffix_append (a b : Str) : trimSuffix (a ++ b) b = a := by
  simp [trimSuffix, hasSuffix_append]

theorem trimPrefix_append (a b : Str) : trimPrefix (a ++ b) a = b := by
  simp [trimPrefix, hasPrefix_append]

/-- The name segment `lookup` derives from the query name `name.zone` is
`name`. -/
theorem lookupName_join (name zone : Str) : lookupName (name ++ dot ++ zone) zone = name := by
  unfold lookupName
  rw [trimSuffix_append, trimSuffix_append]

/-- Where lower-casing leaves prefix, separator, zone and name unchanged, the
key of a record starts with the scan prefix of its name and the rest of the
key is the record type. -/
theorem fullName_under_scan_of_lower (lower : Char → Char) (p : Plugin) (zone : Str) (rec : RR)
    (h : toLower lower (p.pfx ++ p.separator ++ trimSuffix zone dot ++ p.separator ++
          rec.Name ++ p.separator) =
        p.pfx ++ p.separator ++ trimSuffix zone dot ++ p.separator ++ rec.Name ++ p.separator) :
    lookupFullname lower p (rec.Name ++ dot ++ zone) zone <+: fullName p zone rec ∧
      trimPrefix (fullName p zone rec) (lookupFullname lower p (rec.Name ++ dot ++ zone) zone)
        = rec.Typ := by
  have e : lookupFullname lower p (rec.Name ++ dot ++ zone) zone =
      p.pfx ++ p.separator ++ trimSuffix zone dot ++ p.separator ++ rec.Name ++ p.separator := by
    rw [lookupFullname, lookupName_join]; exact h
  rw [e]
  exact ⟨⟨rec.Typ, rfl⟩, trimPrefix_append _ _⟩

/-- Two query names of one zone whose name parts differ only in letter case
get the same scan prefix. -/
theorem lookupFullname_name_case (lower : Char → Char) (p : Plugin) (n1 n2 zone : Str)
    (h : toLower lower n1 = toLower lower n2) :
    lookupFullname lower p (n1 ++ dot ++ zone) zone
      = lookupFullname lower p (n2 ++ dot ++ zone) zone := by
  unfold lookupFullname
  rw [lookupName_join, lookupName_join]
  simp only [toLower, List.map_append] at h ⊢
  rw [h]

/-! ## The codec round trip and case folding (C1, C2) -/

/-- C1, evaluated at a record whose name has upper-case letters.  For prefix
`/dns`, separator `/`, zone `example.com.` and the record `WWW` of type `A`,
the key written by `fullName` does not start with the scan prefix `lookup`
builds for the query name `WWW.example.com.`; stripping the scan prefix leaves
the whole key, not the type; and `lookup` on a store holding just that key
fails with "unexpected number of records". -/
theorem fullName_lookup_roundtrip_upper :
    fullName examplePlugin "example.com.".toList
        ⟨"WWW".toList, 0, "A".toList, "10.0.0.1".toList⟩ = "/dns/example.com/WWW/A".toList ∧
    lookupFullname Char.toLower examplePlugin ("WWW".toList ++ dot ++ "example.com.".toList)
        "example.com.".toList = "/dns/example.com/www/".toList ∧
    hasPrefix "/dns/example.com/WWW/A".toList "/dns/example.com/www/".toList = false ∧
    trimPrefix "/dns/example.com/WWW/A".toList "/dns/example.com/www/".toList
        = "/dns/example.com/WWW/A".toList ∧
    lookup Char.toLower examplePlugin
        (storeOf [⟨"/dns/example.com/WWW/A".toList, "10.0.0.1".toList, 0⟩]).get
        ("WWW".toList ++ dot ++ "example.com.".toList) "example.com.".toList
      = ⟨[], TypeNone, some (.msg "unexpected number of records")⟩ := by
  decide

/-- C2, evaluated at two spellings of one query name.  In zone `example.com.`
the query names `www.example.com.` and `www.EXAMPLE.COM.` differ only in
letter case, yet `lookup` builds different scan prefixes for them (the zone
suffix is trimmed before lower-casing, and only when it matches exactly), and
on a store holding the `A` record of `www` the first is resolved and the
second fails, so that `ServeDNS` answers the first spelling and hands the
second, which is in the zone, to the next handler. -/
theorem lookup_case_spellings_differ :
    toLower Char.toLower "www.EXAMPLE.COM.".toList
      = toLower Char.toLower "www.example.com.".toList ∧
    lookupFullname Char.toLower examplePlugin "www.example.com.".toList "example.com.".toList
      = "/dns/example.com/www/".toList ∧
    lookupFullname Char.toLower examplePlugin "www.EXAMPLE.COM.".toList "example.com.".toList
      = "/dns/example.com/www.example.com/".toList ∧
    lookup Char.toLower examplePlugin
        (storeOf [⟨"/dns/example.com/www/A".toList, "10.0.0.1".toList, 0⟩]).get
        "www.example.com.".toList "example.com.".toList
      = ⟨"10.0.0.1".toList, TypeA, none⟩ ∧
    lookup Char.toLower examplePlugin
        (storeOf [⟨"/dns/example.com/www/A".toList, "10.0.0.1".toList, 0⟩]).get
        "www.EXAMPLE.COM.".toList "example.com.".toList
      = ⟨[], TypeNone, some (.msg "unexpected number of records")⟩ ∧
    asciiMatches examplePlugin.zone "www.EXAMPLE.COM.".toList = "example.com.".toList ∧
    ServeDNS Char.toLower examplePlugin asciiMatches
        ⟨RcodeServerFailure, some (.msg "no next plugin found"), []⟩
        (storeOf [⟨"/dns/example.com/www/A".toList, "10.0.0.1".toList, 0⟩]).get
        ⟨"www.example.com.".toList, TypeA⟩
      = ⟨RcodeSuccess, none,
          [reply [.A ⟨"www.example.com.".toList, ttl, ClassINET, TypeA⟩ "10.0.0.1".toList]]⟩ ∧
    ServeDNS Char.toLower examplePlugin asciiMatches
        ⟨RcodeServerFailure, some (.msg "no next plugin found"), []⟩
        (storeOf [⟨"/dns/example.com/www/A".toList, "10.0.0.1".toList, 0⟩]).get
        ⟨"www.EXAMPLE.COM.".toList, TypeA⟩
      = ⟨RcodeServerFailure, some (.msg "no next plugin found"), []⟩ := by
  decide

/-! ## The resolver (C3, C4) -/

theorem dispatch_A (zone v : Str) : dispatch zone v "A".toList = ⟨v, TypeA, none⟩ := rfl

theorem dispatch_CNAME (zone v : Str) :
    dispatch zone v "CNAME".toList = ⟨v ++ dot ++ zone, TypeCNAME, none⟩ := rfl

theorem dispatch_TXT (zone v : Str) : dispatch zone v "TXT".toList = ⟨v, TypeTXT, none⟩ := rfl

theorem dispatch_other (zone v tp : Str) (hA : tp ≠ "A".toList) (hC : tp ≠ "CNAME".toList)
    (hT : tp ≠ "TXT".toList) :
    dispatch zone v tp = ⟨[], TypeNone, some (.fmtStr "unsupported record type" tp)⟩ := by
  unfold dispatch
  rw [if_neg hA, if_neg hC, if_neg hT]

theorem lookup_of_range_nil (lower : Char → Char) (p : Plugin) (s : Store) (qname zone : Str)
    (h : s.range (lookupFullname lower p qname zone) = []) :
    lookup lower p s.get qname zone
      = ⟨[], TypeNone, some (.msg "unexpected number of records")⟩ := by
  simp [lookup, Store.get, h]

theorem lookup_of_range_many (lower : Char → Char) (p : Plugin) (s : Store) (qname zone : Str)
    (a b : KeyValue) (rest : List KeyValue)
    (h : s.range (lookupFullname lower p qname zone) = a :: b :: rest) :
    lookup lower p s.get qname zone
      = ⟨[], TypeNone, some (.msg "unexpected number of records")⟩ := by
  simp [lookup, Store.get, h]

theorem lookup_of_range_one (lower : Char → Char) (p : Plugin) (s : Store) (qname zone : Str)
    (kv : KeyValue) (h : s.range (lookupFullname lower p qname zone) = [kv]) :
    lookup lower p s.get qname zone
      = dispatch zone kv.Value (trimPrefix kv.Key (lookupFullname lower p qname zone)) := by
  simp [lookup, Store.get, h]

/-- A scan whose length is not one makes `lookup` fail with an empty value. -/
theorem lookup_of_range_length_ne_one (lower : Char → Char) (p : Plugin) (s : Store)
    (qname zone : Str) (h : (s.range (lookupFullname lower p qname zone)).length ≠ 1) :
    lookup lower p s.get qname zone
      = ⟨[], TypeNone, some (.msg "unexpected number of records")⟩ := by
  match hr : s.range (lookupFullname lower p qname zone) with
  | [] => exact lookup_of_range_nil lower p s qname zone hr
  | [kv] => rw [hr] at h; simp at h
  | a :: b :: rest => exact lookup_of_range_many lower p s qname zone a b rest hr

/-- Two records of one name and different types have different keys. -/
theorem fullName_ne_of_type_ne (p : Plugin) (zone : Str) (r1 r2 : RR)
    (hn : r1.Name = r2.Name) (ht : r1.Typ ≠ r2.Typ) :
    fullName p zone r1 ≠ fullName p zone r2 := by
  intro h
  simp only [fullName, hn] at h
  exact ht (List.append_cancel_left h)

/-- C3.  `lookup` succeeds only on a scan of exactly one key.  For every store
state: when the number of keys under the scan prefix is not one, `lookup`
returns an error and the empty value; so it does whenever two stored keys
under the scan prefix differ, as the keys of one zone and name stored with two
different types do; and when the scan returns exactly one key whose suffix is
`A`, `CNAME` or `TXT`, `lookup` returns no error. -/
theorem lookup_exactly_one (lower : Char → Char) (p : Plugin) (s : Store) (qname zone : Str) :
    ((s.range (lookupFullname lower p qname zone)).length ≠ 1 →
        (lookup lower p s.get qname zone).err ≠ none ∧
        (lookup lower p s.get qname zone).value = []) ∧
    (∀ (z : Str) (r1 r2 : RR) (v1 v2 : Str) (l1 l2 : Nat),
        r1.Name = r2.Name → r1.Typ ≠ r2.Typ →
        (⟨fullName p z r1, v1, l1⟩ : KeyValue) ∈ s.kvs →
        (⟨fullName p z r2, v2, l2⟩ : KeyValue) ∈ s.kvs →
        hasPrefix (fullName p z r1) (lookupFullname lower p qname zone) = true →
        hasPrefix (fullName p z r2) (lookupFullname lower p qname zone) = true →
        (lookup lower p s.get qname zone).err ≠ none ∧
        (lookup lower p s.get qname zone).value = []) ∧
    (∀ kv : KeyValue, s.range (lookupFullname lower p qname zone) = [kv] →
        (trimPrefix kv.Key (lookupFullname lower p qname zone) = "A".toList ∨
         trimPrefix kv.Key (lookupFullname lower p qname zone) = "CNAME".toList ∨
         trimPrefix kv.Key (lookupFullname lower p qname zone) = "TXT".toList) →
        (lookup lower p s.get qname zone).err = none) := by
  have hne : (s.range (lookupFullname lower p qname zone)).length ≠ 1 →
      (lookup lower p s.get qname zone).err ≠ none ∧
      (lookup lower p s.get qname zone).value = [] := by
    intro h
    rw [lookup_of_range_length_ne_one lower p s qname zone h]
    simp
  refine ⟨hne, ?_, ?_⟩
  · intro z r1 r2 v1 v2 l1 l2 hn ht h1 h2 p1 p2
    apply hne
    intro hlen
    obtain ⟨kv, hkv⟩ := List.length_eq_one.mp hlen
    have m1 : (⟨fullName p z r1, v1, l1⟩ : KeyValue) ∈ s.range (lookupFullname lower p qname zone) := by
      simp [Store.range, h1, p1]
    have m2 : (⟨fullName p z r2, v2, l2⟩ : KeyValue) ∈ s.range (lookupFullname lower p qname zone) := by
      simp [Store.range, h2, p2]
    rw [hkv] at m1 m2
    simp at m1 m2
    have : fullName p z r1 = fullName p z r2 := by
      have e1 := congrArg KeyValue.Key m1
      have e2 := congrArg KeyValue.Key m2
      simp at e1 e2
      rw [e1, e2]
    exact fullName_ne_of_type_ne p z r1 r2 hn ht this
  · intro kv hkv htp
    rw [lookup_of_range_one lower p s qname zone kv hkv]
    rcases htp with h | h | h <;> rw [h]
    · rw [dispatch_A]
    · rw [dispatch_CNAME]
    · rw [dispatch_TXT]

/-- An instance of C3: with the `A` and the `TXT` record of `www` both stored
the lookup of `www.example.com.` fails with an empty value, and with the `A`
record alone it succeeds. -/
theorem lookup_exactly_one_witness :
    ((lookup Char.toLower examplePlugin
        (storeOf [⟨"/dns/example.com/www/A".toList, "10.0.0.1".toList, 0⟩,
                  ⟨"/dns/example.com/www/TXT".toList, "hello".toList, 0⟩]).get
        "www.example.com.".toList "example.com.".toList).err ≠ none ∧
     (lookup Char.toLower examplePlugin
        (storeOf [⟨"/dns/example.com/www/A".toList, "10.0.0.1".toList, 0⟩,
                  ⟨"/dns/example.com/www/TXT".toList, "hello".toList, 0⟩]).get
        "www.example.com.".toList "example.com.".toList).value = []) ∧
    (lookup Char.toLower examplePlugin
        (storeOf [⟨"/dns/example.com/www/A".toList, "10.0.0.1".toList, 0⟩]).get
        "www.example.com.".toList "example.com.".toList).err = none :=
  ⟨(lookup_exactly_one Char.toLower examplePlugin
      (storeOf [⟨"/dns/example.com/www/A".toList, "10.0.0.1".toList, 0⟩,
                ⟨"/dns/example.com/www/TXT".toList, "hello".toList, 0⟩])
      "www.example.com.".toList "example.com.".toList).2.1
      "example.com.".toList ⟨"www".toList, 0, "A".toList, []⟩ ⟨"www".toList, 0, "TXT".toList, []⟩
      "10.0.0.1".toList "hello".toList 0 0 rfl (by decide) (by decide) (by decide)
      (by decide) (by decide),
   (lookup_exactly_one Char.toLower examplePlugin
      (storeOf [⟨"/dns/example.com/www/A".toList, "10.0.0.1".toList, 0⟩])
      "www.example.com.".toList "example.com.".toList).2.2
      ⟨"/dns/example.com/www/A".toList, "10.0.0.1".toList, 0⟩ (by decide) (Or.inl (by decide))⟩

/-- C4.  Type dispatch of `lookup` on the single matched pair `kv`: with `tp`
the key without the scan prefix, `tp = "A"` gives `(v, A)`, `tp = "CNAME"`
gives `(v + "." + zone, CNAME)`, `tp = "TXT"` gives `(v, TXT)`, and every
other `tp` gives the empty value with the unsupported-record-type error. -/
theorem lookup_dispatch (lower : Char → Char) (p : Plugin)
    (get : Str → Except Error (List KeyValue)) (qname zone : Str) (kv : KeyValue)
    (h : get (lookupFullname lower p qname zone) = .ok [kv]) :
    (trimPrefix kv.Key (lookupFullname lower p qname zone) = "A".toList →
      lookup lower p get qname zone = ⟨kv.Value, TypeA, none⟩) ∧
    (trimPrefix kv.Key (lookupFullname lower p qname zone) = "CNAME".toList →
      lookup lower p get qname zone = ⟨kv.Value ++ ".".toList ++ zone, TypeCNAME, none⟩) ∧
    (trimPrefix kv.Key (lookupFullname lower p qname zone) = "TXT".toList →
      lookup lower p get qname zone = ⟨kv.Value, TypeTXT, none⟩) ∧
    (trimPrefix kv.Key (lookupFullname lower p qname zone) ≠ "A".toList →
      trimPrefix kv.Key (lookupFullname lower p qname zone) ≠ "CNAME".toList →
      trimPrefix kv.Key (lookupFullname lower p qname zone) ≠ "TXT".toList →
      lookup lower p get qname zone =
        ⟨[], TypeNone, some (.fmtStr "unsupported record type"
          (trimPrefix kv.Key (lookupFullname lower p qname zone)))⟩) := by
  have e : lookup lower p get qname zone
      = dispatch zone kv.Value (trimPrefix kv.Key (lookupFullname lower p qname zone)) := by
    simp [lookup, h]
  rw [e]
  refine ⟨?_, ?_, ?_, ?_⟩
  · intro h1; rw [h1, dispatch_A]
  · intro h1; rw [h1, dispatch_CNAME]; rfl
  · intro h1; rw [h1, dispatch_TXT]
  · intro hA hC hT; exact dispatch_other zone kv.Value _ hA hC hT

/-- An instance of C4: the four branches on stores holding one record of
`www` of type `A`, `CNAME`, `TXT` and `MX`. -/
theorem lookup_dispatch_witness :
    lookup Char.toLower examplePlugin
        (storeOf [⟨"/dns/example.com/www/A".toList, "10.0.0.1".toList, 0⟩]).get
        "www.example.com.".toList "example.com.".toList
      = ⟨"10.0.0.1".toList, TypeA, none⟩ ∧
    lookup Char.toLower examplePlugin
        (storeOf [⟨"/dns/example.com/www/CNAME".toList, "web".toList, 0⟩]).get
        "www.example.com.".toList "example.com.".toList
      = ⟨"web".toList ++ ".".toList ++ "example.com.".toList, TypeCNAME, none⟩ ∧
    lookup Char.toLower examplePlugin
        (storeOf [⟨"/dns/example.com/www/TXT".toList, "Hello World".toList, 0⟩]).get
        "www.example.com.".toList "example.com.".toList
      = ⟨"Hello World".toList, TypeTXT, none⟩ ∧
    lookup Char.toLower examplePlugin
        (storeOf [⟨"/dns/example.com/www/MX".toList, "mail".toList, 0⟩]).get
        "www.example.com.".toList "example.com.".toList
      = ⟨[], TypeNone, some (.fmtStr "unsupported record type" "MX".toList)⟩ :=
  ⟨(lookup_dispatch Char.toLower examplePlugin
      (storeOf [⟨"/dns/example.com/www/A".toList, "10.0.0.1".toList, 0⟩]).get
      "www.example.com.".toList "example.com.".toList
      ⟨"/dns/example.com/www/A".toList, "10.0.0.1".toList, 0⟩ rfl).1 (by decide),
   (lookup_dispatch Char.toLower examplePlugin
      (storeOf [⟨"/dns/example.com/www/CNAME".toList, "web".toList, 0⟩]).get
      "www.example.com.".toList "example.com.".toList
      ⟨"/dns/example.com/www/CNAME".toList, "web".toList, 0⟩ rfl).2.1 (by decide),
   (lookup_dispatch Char.toLower examplePlugin
      (storeOf [⟨"/dns/example.com/www/TXT".toList, "Hello World".toList, 0⟩]).get
      "www.example.com.".toList "example.com.".toList
      ⟨"/dns/example.com/www/TXT".toList, "Hello World".toList, 0⟩ rfl).2.2.1 (by decide),
   (lookup_dispatch Char.toLower examplePlugin
      (storeOf [⟨"/dns/example.com/www/MX".toList, "mail".toList, 0⟩]).get
      "www.example.com.".toList "example.com.".toList
      ⟨"/dns/example.com/www/MX".toList, "mail".toList, 0⟩ rfl).2.2.2
      (by decide) (by decide) (by decide)⟩

/-! ## The query handler (C8, C9) -/

/-- A successful `lookup` returns one of the three supported types. -/
theorem lookup_typ_of_ok (lower : Char → Char) (p : Plugin)
    (get : Str → Except Error (List KeyValue)) (qname zone : Str)
    (h : (lookup lower p get qname zone).err = none) :
    (lookup lower p get qname zone).typ = TypeA ∨
    (lookup lower p get qname zone).typ = TypeCNAME ∨
    (lookup lower p get qname zone).typ = TypeTXT := by
  unfold lookup at h ⊢
  cases hg : get (lookupFullname lower p qname zone) with
  | error e => simp [hg] at h
  | ok kvs =>
    match kvs with
    | [] => simp [hg] at h
    | _ :: _ :: _ => simp [hg] at h
    | [kv] =>
      simp only [hg] at h ⊢
      unfold dispatch at h ⊢
      split_ifs at h ⊢ <;> simp at h ⊢

/-- C8.  For an in-zone query: when the lookup of the query name fails,
`ServeDNS` returns the outcome of `NextOrFailure` and writes nothing of its
own; when the first lookup succeeds with type CNAME and the lookup of the
target fails with `e`, `ServeDNS` returns `RcodeServerFailure` with the error
wrapping `e` and writes no answer. -/
theorem ServeDNS_failure_signals (lower : Char → Char) (p : Plugin)
    (zoneMatches : Str → Str → Str) (next : ServeResult)
    (get : Str → Except Error (List KeyValue)) (req : Question)
    (hz : zoneMatches p.zone req.qname ≠ []) :
    ((lookup lower p get req.qname (zoneMatches p.zone req.qname)).err ≠ none →
      ServeDNS lower p zoneMatches next get req = next) ∧
    (∀ e : Error,
      (lookup lower p get req.qname (zoneMatches p.zone req.qname)).err = none →
      (lookup lower p get req.qname (zoneMatches p.zone req.qname)).typ = TypeCNAME →
      (lookup lower p get
        (lookup lower p get req.qname (zoneMatches p.zone req.qname)).value
        (zoneMatches p.zone req.qname)).err = some e →
      ServeDNS lower p zoneMatches next get req =
        ⟨RcodeServerFailure, some (.wrap "unable to lookup name on etcd" e), []⟩ ∧
      (ServeDNS lower p zoneMatches next get req).rcode = RcodeServerFailure ∧
      (ServeDNS lower p zoneMatches next get req).err ≠ none ∧
      (ServeDNS lower p zoneMatches next get req).written = []) := by
  constructor
  · intro h
    unfold ServeDNS
    simp only [if_neg hz]
    cases he : (lookup lower p get req.qname (zoneMatches p.zone req.qname)).err with
    | none => exact absurd he h
    | some e => simp
  · intro e h1 h2 h3
    have key : ServeDNS lower p zoneMatches next get req =
        ⟨RcodeServerFailure, some (.wrap "unable to lookup name on etcd" e), []⟩ := by
      unfold ServeDNS
      simp only [if_neg hz, h1, h2, h3]
      rfl
    rw [key]
    simp

/-- An instance of C8, with `NextOrFailure` returning the server failure of an
empty chain: on an empty store the query `www.example.com.` is passed to the
next handler; on a store holding only the CNAME record `www → web` the
follow-up lookup of `web.example.com.` fails and the handler returns
`RcodeServerFailure` with nothing written. -/
theorem ServeDNS_failure_signals_witness :
    ServeDNS Char.toLower examplePlugin asciiMatches
        ⟨RcodeServerFailure, some (.msg "no next plugin found"), []⟩
        (storeOf []).get ⟨"www.example.com.".toList, TypeA⟩
      = ⟨RcodeServerFailure, some (.msg "no next plugin found"), []⟩ ∧
    ServeDNS Char.toLower examplePlugin asciiMatches
        ⟨RcodeSuccess, none, [reply []]⟩
        (storeOf [⟨"/dns/example.com/www/CNAME".toList, "web".toList, 0⟩]).get
        ⟨"www.example.com.".toList, TypeA⟩
      = ⟨RcodeServerFailure,
          some (.wrap "unable to lookup name on etcd" (.msg "unexpected number of records")),
          []⟩ :=
  ⟨(ServeDNS_failure_signals Char.toLower examplePlugin asciiMatches
      ⟨RcodeServerFailure, some (.msg "no next plugin found"), []⟩
      (storeOf []).get ⟨"www.example.com.".toList, TypeA⟩ (by decide)).1 (by decide),
   ((ServeDNS_failure_signals Char.toLower examplePlugin asciiMatches
      ⟨RcodeSuccess, none, [reply []]⟩
      (storeOf [⟨"/dns/example.com/www/CNAME".toList, "web".toList, 0⟩]).get
      ⟨"www.example.com.".toList, TypeA⟩ (by decide)).2
      (.msg "unexpected number of records") (by decide) (by decide) (by decide)).1⟩

/-- The outcome of `ServeDNS` does not depend on the type of the query: the
switch is on the type of the stored record, and its default branch is never
reached. -/
theorem ServeDNS_qtype_irrelevant (lower : Char → Char) (p : Plugin)
    (zoneMatches : Str → Str → Str) (next : ServeResult)
    (get : Str → Except Error (List KeyValue)) (qname : Str) (t1 t2 : DnsType) :
    ServeDNS lower p zoneMatches next get ⟨qname, t1⟩
      = ServeDNS lower p zoneMatches next get ⟨qname, t2⟩ := by
  unfold ServeDNS
  by_cases hz : zoneMatches p.zone qname = []
  · simp only [if_pos hz]
  · simp only [if_neg hz]
    have ht := lookup_typ_of_ok lower p get qname (zoneMatches p.zone qname)
    cases he : (lookup lower p get qname (zoneMatches p.zone qname)).err with
    | some e => rfl
    | none =>
      rcases ht he with h | h | h <;> simp only [h] <;> rfl

/-- C9, evaluated at a query of type MX (15).  The store holds the `A` record
of `www`; the in-zone query `www.example.com.` of type MX is answered with
`RcodeSuccess`, no error and the `A` record written, not with
`RcodeNotImplemented`; the outcome is the one of the same query with type A. -/
theorem ServeDNS_unsupported_query_type_answered :
    asciiMatches examplePlugin.zone "www.example.com.".toList = "example.com.".toList ∧
    ServeDNS Char.toLower examplePlugin asciiMatches
        ⟨RcodeServerFailure, some (.msg "no next plugin found"), []⟩
        (storeOf [⟨"/dns/example.com/www/A".toList, "10.0.0.1".toList, 0⟩]).get
        ⟨"www.example.com.".toList, 15⟩
      = ⟨RcodeSuccess, none,
          [reply [.A ⟨"www.example.com.".toList, ttl, ClassINET, TypeA⟩ "10.0.0.1".toList]]⟩ ∧
    ServeDNS Char.toLower examplePlugin asciiMatches
        ⟨RcodeServerFailure, some (.msg "no next plugin found"), []⟩
        (storeOf [⟨"/dns/example.com/www/A".toList, "10.0.0.1".toList, 0⟩]).get
        ⟨"www.example.com.".toList, 15⟩
      = ServeDNS Char.toLower examplePlugin asciiMatches
        ⟨RcodeServerFailure, some (.msg "no next plugin found"), []⟩
        (storeOf [⟨"/dns/example.com/www/A".toList, "10.0.0.1".toList, 0⟩]).get
        ⟨"www.example.com.".toList, TypeA⟩ := by
  decide

/-! ## Losslessness of the key encoding (C5) -/

/-- Two strings cut at the first occurrence of `c` are equal only when both
parts are. -/
theorem append_cons_inj (c : Char) (a b x y : Str) (ha : c ∉ a) (hb : c ∉ b)
    (h : a ++ c :: x = b ++ c :: y) : a = b ∧ x = y := by
  induction a generalizing b with
  | nil =>
    cases b with
    | nil => simpa using h
    | cons d b =>
      simp only [List.nil_append, List.cons_append, List.cons.injEq] at h
      exact absurd (h.1 ▸ List.mem_cons_self d b) hb
  | cons e a ih =>
    cases b with
    | nil =>
      simp only [List.nil_append, List.cons_append, List.cons.injEq] at h
      exact absurd (h.1 ▸ List.mem_cons_self e a) ha
    | cons d b =>
      simp only [List.cons_append, List.cons.injEq] at h
      have ha2 : c ∉ a := fun m => ha (List.mem_cons_of_mem _ m)
      have hb2 : c ∉ b := fun m => hb (List.mem_cons_of_mem _ m)
      obtain ⟨e1, e2⟩ := ih b ha2 hb2 h.2
      exact ⟨by rw [h.1, e1], e2⟩

/-- The same for a string that is only the beginning of the other. -/
theorem append_cons_isPrefix (c : Char) (a b x y : Str) (ha : c ∉ a) (hb : c ∉ b)
    (h : a ++ c :: x <+: b ++ c :: y) : a = b ∧ x <+: y := by
  obtain ⟨t, ht⟩ := h
  have h2 : a ++ c :: (x ++ t) = b ++ c :: y := by simpa using ht
  obtain ⟨e1, e2⟩ := append_cons_inj c a b (x ++ t) y ha hb h2
  exact ⟨e1, ⟨t, e2⟩⟩

/-- A beginning split at the same length is split into equal heads. -/
theorem isPrefix_append_of_length_eq (a b x y : Str) (hl : a.length = b.length)
    (h : a ++ x <+: b ++ y) : a = b ∧ x <+: y := by
  obtain ⟨t, ht⟩ := h
  have h2 : a ++ (x ++ t) = b ++ y := by simpa using ht
  obtain ⟨e1, e2⟩ := List.append_inj h2 hl
  exact ⟨e1, ⟨t, e2⟩⟩

/-- C5, at a separator that occurs inside zones and names.  With prefix `/dns`
and separator `.`, the record `www` of zone `example.com.` and the record
`com.www` of zone `example.` are written under the same key although zone and
name differ, and the scan prefix of the query name `www.example.com.` in zone
`example.com.` matches that key of the other zone and name. -/
theorem fullName_not_injective :
    fullName ⟨[], "/dns".toList, ".".toList⟩ "example.com.".toList
        ⟨"www".toList, 0, "A".toList, "10.0.0.1".toList⟩
      = fullName ⟨[], "/dns".toList, ".".toList⟩ "example.".toList
        ⟨"com.www".toList, 0, "A".toList, "10.0.0.2".toList⟩ ∧
    trimSuffix "example.com.".toList dot ≠ trimSuffix "example.".toList dot ∧
    "www".toList ≠ "com.www".toList ∧
    hasPrefix
        (fullName ⟨[], "/dns".toList, ".".toList⟩ "example.".toList
          ⟨"com.www".toList, 0, "A".toList, "10.0.0.2".toList⟩)
        (lookupFullname Char.toLower ⟨[], "/dns".toList, ".".toList⟩
          "www.example.com.".toList "example.com.".toList) = true := by
  decide

/-- C5, amended.  For a fixed prefix and a separator that starts with a
character `c`: on zones (trailing dot stripped) and record names in which `c`
does not occur, `fullName` is injective in (zone, name, type); and when `c`
does not occur in the lower-cased zone and name of a lookup, the scan prefix
of that lookup matches, among the keys of such zones and names, only keys
whose zone and name are the lower-cased zone and name of the lookup. -/
theorem fullName_injective_of_separator_free (p : Plugin) (c : Char) (rest : Str)
    (hsep : p.separator = c :: rest) :
    (∀ (z1 z2 : Str) (r1 r2 : RR),
        c ∉ trimSuffix z1 dot → c ∉ r1.Name → c ∉ trimSuffix z2 dot → c ∉ r2.Name →
        fullName p z1 r1 = fullName p z2 r2 →
        trimSuffix z1 dot = trimSuffix z2 dot ∧ r1.Name = r2.Name ∧ r1.Typ = r2.Typ) ∧
    (∀ (lower : Char → Char) (qname qzone z : Str) (r : RR),
        c ∉ toLower lower (trimSuffix qzone dot) → c ∉ toLower lower (lookupName qname qzone) →
        c ∉ trimSuffix z dot → c ∉ r.Name →
        hasPrefix (fullName p z r) (lookupFullname lower p qname qzone) = true →
        trimSuffix z dot = toLower lower (trimSuffix qzone dot) ∧
        r.Name = toLower lower (lookupName qname qzone)) := by
  constructor
  · intro z1 z2 r1 r2 hz1 hn1 hz2 hn2 h
    have h0 : (p.pfx ++ p.separator) ++
        (trimSuffix z1 dot ++ c :: (rest ++ (r1.Name ++ c :: (rest ++ r1.Typ))))
        = (p.pfx ++ p.separator) ++
          (trimSuffix z2 dot ++ c :: (rest ++ (r2.Name ++ c :: (rest ++ r2.Typ)))) := by
      simpa [fullName, hsep, List.append_assoc] using h
    have h1 := List.append_cancel_left h0
    obtain ⟨ez, h2⟩ := append_cons_inj c _ _ _ _ hz1 hz2 h1
    have h3 := List.append_cancel_left h2
    obtain ⟨en, h4⟩ := append_cons_inj c _ _ _ _ hn1 hn2 h3
    exact ⟨ez, en, List.append_cancel_left h4⟩
  · intro lower qname qzone z r hqz hqn hz hn h
    rw [hasPrefix_iff] at h
    simp only [fullName, lookupFullname, toLower, List.map_append] at h hqz hqn
    have h0 : (List.map lower p.pfx ++ List.map lower p.separator) ++
        (List.map lower (trimSuffix qzone dot) ++ (List.map lower p.separator ++
          (List.map lower (lookupName qname qzone) ++ List.map lower p.separator)))
        <+: (p.pfx ++ p.separator) ++
          (trimSuffix z dot ++ (p.separator ++ (r.Name ++ (p.separator ++ r.Typ)))) := by
      simpa [List.append_assoc] using h
    obtain ⟨e0, h1⟩ := isPrefix_append_of_length_eq _ _ _ _ (by simp) h0
    have es : List.map lower p.separator = p.separator :=
      (List.append_inj e0 (by simp)).2
    rw [es, hsep] at h1
    simp only [List.cons_append] at h1
    obtain ⟨ez, h2⟩ := append_cons_isPrefix c _ _ _ _ hqz hz h1
    have h3 := (List.prefix_append_right_inj rest).mp h2
    obtain ⟨en, _⟩ := append_cons_isPrefix c _ _ _ _ hqn hn h3
    exact ⟨by simp [toLower, ez], by simp [toLower, en]⟩

/-- An instance of C5 as amended, with prefix `/dns` and separator `/`: equal
keys of two records of zone `example.com.` give equal zone, name and type, and
the key of the `A` record of `www`, which the scan prefix of the query name
`WWW.example.com.` matches, has the lower-cased zone and name of the query. -/
theorem fullName_injective_of_separator_free_witness :
    (trimSuffix "example.com.".toList dot = trimSuffix "example.com".toList dot ∧
      "www".toList = "www".toList ∧ "A".toList = "A".toList) ∧
    (trimSuffix "example.com.".toList dot
        = toLower Char.toLower (trimSuffix "example.com.".toList dot) ∧
      "www".toList
        = toLower Char.toLower (lookupName "WWW.example.com.".toList "example.com.".toList)) :=
  ⟨(fullName_injective_of_separator_free examplePlugin '/' [] rfl).1
      "example.com.".toList "example.com".toList
      ⟨"www".toList, 0, "A".toList, "10.0.0.1".toList⟩
      ⟨"www".toList, 300, "A".toList, "10.0.0.2".toList⟩
      (by decide) (by decide) (by decide) (by decide) (by decide),
   (fullName_injective_of_separator_free examplePlugin '/' [] rfl).2
      Char.toLower "WWW.example.com.".toList "example.com.".toList "example.com.".toList
      ⟨"www".toList, 0, "A".toList, "10.0.0.1".toList⟩
      (by decide) (by decide) (by decide) (by decide) (by decide)⟩

/-! ## The record store (C7) -/

theorem callsSince_of_log_eq (s t : Store) (l : List (Request × Bool)) (h : t.log = s.log ++ l) :
    callsSince s t = l := by
  simp [callsSince, h]

/-- What one iteration that succeeds does: the record parses, one put is
issued and served, for its key and data, and the pair is in the store. -/
theorem appendRecord_ok (env : Env) (p : Plugin) (zone : Str) (s t : Store) (rec : RR)
    (h : appendRecord env p zone s rec = (t, none)) :
    ∃ (r : RR) (lease : Nat) (l : List (Request × Bool)),
      env.parse rec = .ok r ∧ t.log = s.log ++ l ∧
      putsApplied l = [⟨fullName p zone r, r.Data, lease⟩] ∧
      putsIssued l = [(fullName p zone r, r.Data)] ∧
      t.kvs = upsert s.kvs ⟨fullName p zone r, r.Data, lease⟩ := by
  unfold appendRecord at h
  cases hp : env.parse rec with
  | error err => simp [hp] at h
  | ok r =>
    simp only [hp] at h
    by_cases httl : r.TTL > 0
    · simp only [if_pos httl, Store.grant] at h
      cases hf : env.fails s.log.length with
      | some e => simp [hf] at h
      | none =>
        simp only [hf, putRecord, Store.put, List.length_append, List.length_singleton] at h
        cases hf2 : env.fails (s.log.length + 1) with
        | some e => simp [hf2] at h
        | none =>
          simp only [hf2, Prod.mk.injEq, and_true] at h
          subst h
          exact ⟨r, s.nextLease, [(.grant (env.seconds r.TTL), true),
            (.put (fullName p zone r) r.Data s.nextLease, true)], rfl, by simp, rfl, rfl, rfl⟩
    · simp only [if_neg httl, putRecord, Store.put] at h
      cases hf : env.fails s.log.length with
      | some e => simp [hf] at h
      | none =>
        simp only [hf, Prod.mk.injEq, and_true] at h
        subst h
        exact ⟨r, 0, [(.put (fullName p zone r) r.Data 0, true)], rfl, rfl, rfl, rfl, rfl⟩

/-- What one iteration that fails does: no put is served and the pairs of the
store are unchanged; a put is issued only when the failure is the one of the
put, for the key and data of the parsed record. -/
theorem appendRecord_error (env : Env) (p : Plugin) (zone : Str) (s t : Store) (rec : RR)
    (e : Error) (h : appendRecord env p zone s rec = (t, some e)) :
    ∃ l : List (Request × Bool),
      t.log = s.log ++ l ∧ putsApplied l = [] ∧ t.kvs = s.kvs ∧
      ((∀ c, e ≠ .wrap "error putting record in etcd" c) → putsIssued l = []) ∧
      ((∃ c, e = .wrap "error putting record in etcd" c) →
        ∃ r, env.parse rec = .ok r ∧ putsIssued l = [(fullName p zone r, r.Data)]) := by
  unfold appendRecord at h
  cases hp : env.parse rec with
  | error err =>
    simp only [hp, Prod.mk.injEq, Option.some.injEq] at h
    obtain ⟨h1, h2⟩ := h
    subst h1 h2
    exact ⟨[], by simp, rfl, rfl, fun _ => rfl, fun ⟨c, hc⟩ => by simp at hc⟩
  | ok r =>
    simp only [hp] at h
    by_cases httl : r.TTL > 0
    · simp only [if_pos httl, Store.grant] at h
      cases hf : env.fails s.log.length with
      | some e1 =>
        simp only [hf, Prod.mk.injEq, Option.some.injEq] at h
        obtain ⟨h1, h2⟩ := h
        subst h1 h2
        exact ⟨[(.grant (env.seconds r.TTL), false)], rfl, rfl, rfl, fun _ => rfl,
          fun ⟨c, hc⟩ => by simp at hc⟩
      | none =>
        simp only [hf, putRecord, Store.put, List.length_append, List.length_singleton] at h
        cases hf2 : env.fails (s.log.length + 1) with
        | none => simp [hf2] at h
        | some e2 =>
          simp only [hf2, Prod.mk.injEq, Option.some.injEq] at h
          obtain ⟨h1, h2⟩ := h
          subst h1 h2
          exact ⟨[(.grant (env.seconds r.TTL), true),
            (.put (fullName p zone r) r.Data s.nextLease, false)], by simp, rfl, rfl,
            fun hne => absurd rfl (hne e2), fun _ => ⟨r, rfl, rfl⟩⟩
    · simp only [if_neg httl, putRecord, Store.put] at h
      cases hf : env.fails s.log.length with
      | none => simp [hf] at h
      | some e2 =>
        simp only [hf, Prod.mk.injEq, Option.some.injEq] at h
        obtain ⟨h1, h2⟩ := h
        subst h1 h2
        exact ⟨[(.put (fullName p zone r) r.Data 0, false)], rfl, rfl, rfl,
          fun hne => absurd rfl (hne e2), fun _ => ⟨r, rfl, rfl⟩⟩

theorem putsApplied_append (a b : List (Request × Bool)) :
    putsApplied (a ++ b) = putsApplied a ++ putsApplied b := by
  simp [putsApplied, List.filterMap_append]

theorem putsIssued_append (a b : List (Request × Bool)) :
    putsIssued (a ++ b) = putsIssued a ++ putsIssued b := by
  simp [putsIssued, List.filterMap_append]

/-- What a loop that succeeds does: every record parses, and the puts issued
are the puts served, one for each record in the order of the batch. -/
theorem appendLoop_ok (env : Env) (p : Plugin) (zone : Str) (recs : List RR) (s t : Store)
    (h : appendLoop env p zone s recs = (t, none)) :
    ∃ (parsed : List RR) (l : List (Request × Bool)),
      recs.map env.parse = parsed.map Except.ok ∧ t.log = s.log ++ l ∧
      (putsApplied l).map (fun kv => (kv.Key, kv.Value))
        = parsed.map (fun r => (fullName p zone r, r.Data)) ∧
      putsIssued l = parsed.map (fun r => (fullName p zone r, r.Data)) ∧
      t.kvs = (putsApplied l).foldl upsert s.kvs := by
  induction recs generalizing s with
  | nil =>
    simp only [appendLoop, Prod.mk.injEq, and_true] at h
    subst h
    exact ⟨[], [], rfl, by simp, rfl, rfl, rfl⟩
  | cons rec rest ih =>
    unfold appendLoop at h
    match hs : appendRecord env p zone s rec with
    | (s1, some err) => simp [hs] at h
    | (s1, none) =>
      simp only [hs] at h
      obtain ⟨r, lease, l1, hp, hl1, ha1, hi1, hk1⟩ := appendRecord_ok env p zone s s1 rec hs
      obtain ⟨parsed, l2, hp2, hl2, ha2, hi2, hk2⟩ := ih s1 h
      refine ⟨r :: parsed, l1 ++ l2, ?_, ?_, ?_, ?_, ?_⟩
      · simp [hp, hp2]
      · rw [hl2, hl1, List.append_assoc]
      · rw [putsApplied_append, List.map_append, ha1, ha2]; rfl
      · rw [putsIssued_append, hi1, hi2]; rfl
      · rw [hk2, hk1, putsApplied_append, ha1]; rfl

/-- The loop on a batch whose records before `rec` succeed and whose record
`rec` fails stops at `rec`. -/
theorem appendLoop_stops (env : Env) (p : Plugin) (zone : Str) (pre : List RR) (rec : RR)
    (post : List RR) (s : Store) (hpre : (appendLoop env p zone s pre).2 = none) :
    appendLoop env p zone s (pre ++ rec :: post)
      = match appendRecord env p zone (appendLoop env p zone s pre).1 rec with
        | (t, some e) => (t, some e)
        | (t, none) => appendLoop env p zone t post := by
  induction pre generalizing s with
  | nil => simp [appendLoop]
  | cons r rest ih =>
    simp only [List.cons_append, appendLoop] at hpre ⊢
    match hs : appendRecord env p zone s r with
    | (s1, some err) => simp [hs] at hpre
    | (s1, none) =>
      simp only [hs] at hpre ⊢
      exact ih s1 hpre

/-- C7, at a batch whose only record fails at the put.  The record parses and
has no TTL, and the store answers the put with an error: position 0 is the
first failing position, the call returns the put error with a nil list and
the store holds no pair, yet a put was issued for position 0. -/
theorem AppendRecords_put_failure_issues_put :
    (AppendRecords (exampleEnv fun _ => some (.msg "context deadline exceeded")) examplePlugin
        "example.com.".toList (storeOf []) [recordA "www" "10.0.0.1"]).err
      = some (.wrap "error putting record in etcd" (.msg "context deadline exceeded")) ∧
    (AppendRecords (exampleEnv fun _ => some (.msg "context deadline exceeded")) examplePlugin
        "example.com.".toList (storeOf []) [recordA "www" "10.0.0.1"]).recs = [] ∧
    (AppendRecords (exampleEnv fun _ => some (.msg "context deadline exceeded")) examplePlugin
        "example.com.".toList (storeOf []) [recordA "www" "10.0.0.1"]).store.kvs = [] ∧
    putsIssued (callsSince (storeOf [])
        (AppendRecords (exampleEnv fun _ => some (.msg "context deadline exceeded")) examplePlugin
          "example.com.".toList (storeOf []) [recordA "www" "10.0.0.1"]).store)
      = [("/dns/example.com/www/A".toList, "10.0.0.1".toList)] := by
  decide

/-- C7, amended.  A batch is applied in order and aborted at the first error,
with no rollback.  For every batch whose records before position `i` (the
list `pre`) succeed and whose record at position `i` (`rec`) fails with `e`
at the parse, the lease grant or the put: the call returns `e` with a nil
record list; every record before `i` parses, and the puts served during the
call are exactly the puts of those records, in the order given, and make the
pairs of the store afterwards; no put is issued for a later position; and a
put is issued for position `i` only when `e` is a put failure, in which case
that put is the last one issued and is not served. -/
theorem AppendRecords_abort_on_first_error (env : Env) (p : Plugin) (zone : Str) (s : Store)
    (pre : List RR) (rec : RR) (post : List RR) (e : Error)
    (hpre : (appendLoop env p zone s pre).2 = none)
    (hrec : (appendRecord env p zone (appendLoop env p zone s pre).1 rec).2 = some e) :
    (AppendRecords env p zone s (pre ++ rec :: post)).err = some e ∧
    (AppendRecords env p zone s (pre ++ rec :: post)).recs = [] ∧
    ∃ parsed : List RR,
      pre.map env.parse = parsed.map Except.ok ∧
      (putsApplied (callsSince s (AppendRecords env p zone s (pre ++ rec :: post)).store)).map
          (fun kv => (kv.Key, kv.Value))
        = parsed.map (fun r => (fullName p zone r, r.Data)) ∧
      (AppendRecords env p zone s (pre ++ rec :: post)).store.kvs
        = (putsApplied (callsSince s
            (AppendRecords env p zone s (pre ++ rec :: post)).store)).foldl upsert s.kvs ∧
      ((∀ c, e ≠ .wrap "error putting record in etcd" c) →
        putsIssued (callsSince s (AppendRecords env p zone s (pre ++ rec :: post)).store)
          = parsed.map (fun r => (fullName p zone r, r.Data))) ∧
      ((∃ c, e = .wrap "error putting record in etcd" c) →
        ∃ r, env.parse rec = .ok r ∧
          putsIssued (callsSince s (AppendRecords env p zone s (pre ++ rec :: post)).store)
            = parsed.map (fun r => (fullName p zone r, r.Data)) ++
              [(fullName p zone r, r.Data)]) := by
  rcases h1 : appendLoop env p zone s pre with ⟨s1, o1⟩
  rcases h2 : appendRecord env p zone s1 rec with ⟨s2, o2⟩
  simp only [h1] at hpre hrec
  simp only [h2] at hrec
  subst hpre hrec
  have hloop : appendLoop env p zone s (pre ++ rec :: post) = (s2, some e) := by
    rw [appendLoop_stops env p zone pre rec post s (by rw [h1]), h1]
    simp only [h2]
  have hout : AppendRecords env p zone s (pre ++ rec :: post) = ⟨s2, [], some e⟩ := by
    simp [AppendRecords, hloop]
  obtain ⟨parsed, l1, hp, hl1, ha1, hi1, hk1⟩ := appendLoop_ok env p zone pre s s1 h1
  obtain ⟨l2, hl2, ha2, hk2, hne, hput⟩ := appendRecord_error env p zone s1 s2 rec e h2
  have hcalls : callsSince s s2 = l1 ++ l2 :=
    callsSince_of_log_eq s s2 (l1 ++ l2) (by rw [hl2, hl1, List.append_assoc])
  rw [hout]
  refine ⟨rfl, rfl, parsed, hp, ?_, ?_, ?_, ?_⟩
  · simp only [hcalls, putsApplied_append, ha2, List.append_nil, ha1]
  · simp only [hcalls, putsApplied_append, ha2, List.append_nil, hk2, hk1]
  · intro h
    simp only [hcalls, putsIssued_append, hne h, List.append_nil, hi1]
  · intro h
    obtain ⟨r, hr, hi2⟩ := hput h
    exact ⟨r, hr, by simp only [hcalls, putsIssued_append, hi1, hi2]⟩

/-- An instance of C7 as amended: of three records the second does not parse.
The put of the first is served and stays in the store, nothing is issued for
the second and the third, and the call returns the parse error. -/
theorem AppendRecords_abort_on_first_error_witness :
    (AppendRecords (exampleEnv fun _ => none) examplePlugin "example.com.".toList (storeOf [])
        ([recordA "a" "10.0.0.1"] ++ recordA "b" "" :: [recordA "c" "10.0.0.3"])).store.kvs
      = [⟨"/dns/example.com/a/A".toList, "10.0.0.1".toList, 0⟩] ∧
    (AppendRecords (exampleEnv fun _ => none) examplePlugin "example.com.".toList (storeOf [])
        ([recordA "a" "10.0.0.1"] ++ recordA "b" "" :: [recordA "c" "10.0.0.3"])).err
      = some (.wrap "error parsing record" (.msg "empty record data")) ∧
    (AppendRecords (exampleEnv fun _ => none) examplePlugin "example.com.".toList (storeOf [])
        ([recordA "a" "10.0.0.1"] ++ recordA "b" "" :: [recordA "c" "10.0.0.3"])).recs = [] :=
  ⟨by decide,
   (AppendRecords_abort_on_first_error (exampleEnv fun _ => none) examplePlugin
      "example.com.".toList (storeOf []) [recordA "a" "10.0.0.1"] (recordA "b" "")
      [recordA "c" "10.0.0.3"] (.wrap "error parsing record" (.msg "empty record data"))
      (by decide) (by decide)).1,
   (AppendRecords_abort_on_first_error (exampleEnv fun _ => none) examplePlugin
      "example.com.".toList (storeOf []) [recordA "a" "10.0.0.1"] (recordA "b" "")
      [recordA "c" "10.0.0.3"] (.wrap "error parsing record" (.msg "empty record data"))
      (by decide) (by decide)).2.1⟩

/-! ## The election engine (C6, C10) -/

/-- C6.  `Campaign` validates its configuration before any call into the
store: for every option list that leaves the prefix empty it returns
`ErrPrefixNotSet`, for every option list that sets a prefix and leaves the
proposal empty it returns `ErrProposalNotSet`, and in both cases the trace is
empty: no session is opened, no campaign submitted, no callback invoked. -/
theorem Campaign_validates_config (env : ElectionEnv) (setters : List ElectionOption) :
    ((applySetters setters).pfx = [] →
      Campaign env setters = (some ErrPrefixNotSet, [])) ∧
    ((applySetters setters).pfx ≠ [] → (applySetters setters).proposal = [] →
      Campaign env setters = (some ErrProposalNotSet, [])) := by
  constructor
  · intro h
    simp [Campaign, h]
  · intro h1 h2
    simp [Campaign, h1, h2]

/-- An instance of C6: a proposal without a prefix, and a prefix (with a
callback) without a proposal. -/
theorem Campaign_validates_config_witness :
    Campaign exampleElectionEnv [WithProposal "node-1".toList] = (some ErrPrefixNotSet, []) ∧
    Campaign exampleElectionEnv
        [WithElection "/leader".toList, WithCallback (some fun _ => none)]
      = (some ErrProposalNotSet, []) :=
  ⟨(Campaign_validates_config exampleElectionEnv [WithProposal "node-1".toList]).1 rfl,
   (Campaign_validates_config exampleElectionEnv
      [WithElection "/leader".toList, WithCallback (some fun _ => none)]).2
      (by decide) rfl⟩

/-- C10.  The callback phase of `Campaign`.  In every execution the callback
is invoked once when the campaign call of the store succeeded and a callback
was supplied, and not at all otherwise; and when the invoked callback returns
an error `e`, `Campaign` returns the error wrapping `e`, and neither the wait
on cancellation or session expiry nor a `Resign` call is in the trace. -/
theorem Campaign_callback_phase (env : ElectionEnv) (setters : List ElectionOption) :
    (campaignSucceeded env (Campaign env setters).2 = true ∧
        (applySetters setters).cb.isSome = true →
      (Campaign env setters).2.count .callback = 1) ∧
    (¬(campaignSucceeded env (Campaign env setters).2 = true ∧
        (applySetters setters).cb.isSome = true) →
      (Campaign env setters).2.count .callback = 0) ∧
    (∀ (cb : Callback) (e : Error),
      (applySetters setters).cb = some cb → Event.callback ∈ (Campaign env setters).2 →
      cb () = some e →
      (Campaign env setters).1
          = some (.wrap "error executing callback after winning election" e) ∧
      Event.wait ∉ (Campaign env setters).2 ∧ Event.resign ∉ (Campaign env setters).2) := by
  unfold campaignSucceeded Campaign
  by_cases hp : (applySetters setters).pfx = []
  · simp [hp]
  · by_cases hq : (applySetters setters).proposal = []
    · simp [hp, hq]
    · simp only [if_neg hp, if_neg hq]
      cases hs : env.newSession with
      | some err => simp
      | none =>
        cases hc : env.campaign (applySetters setters).pfx (applySetters setters).proposal with
        | some err => simp [hc]
        | none =>
          cases hcb : (applySetters setters).cb with
          | none =>
            cases hw : env.wake <;> cases hr : env.resign <;> simp [waitAndResign, hw, hr]
          | some cb =>
            cases hres : cb () with
            | some err =>
              simp [hc, hres]
              intro cb1 e h1 h2
              subst h1
              rw [hres] at h2
              exact Option.some.inj h2
            | none =>
              cases hw : env.wake <;> cases hr : env.resign <;>
                simp [waitAndResign, hw, hr, hc, hres] <;>
                (intro cb1 e h1 h2; subst h1; rw [hres] at h2; exact Option.noConfusion h2)

/-- An instance of C10: with a won campaign and a callback that fails, the
callback is invoked once and `Campaign` returns its error wrapped, with no
wait and no resignation. -/
theorem Campaign_callback_phase_witness :
    (Campaign exampleElectionEnv
        [WithElection "/leader".toList, WithProposal "node-1".toList,
         WithCallback (some fun _ => some (.msg "boom"))]).2.count .callback = 1 ∧
    ((Campaign exampleElectionEnv
        [WithElection "/leader".toList, WithProposal "node-1".toList,
         WithCallback (some fun _ => some (.msg "boom"))]).1
        = some (.wrap "error executing callback after winning election" (.msg "boom")) ∧
      Event.wait ∉ (Campaign exampleElectionEnv
        [WithElection "/leader".toList, WithProposal "node-1".toList,
         WithCallback (some fun _ => some (.msg "boom"))]).2 ∧
      Event.resign ∉ (Campaign exampleElectionEnv
        [WithElection "/leader".toList, WithProposal "node-1".toList,
         WithCallback (some fun _ => some (.msg "boom"))]).2) :=
  ⟨(Campaign_callback_phase exampleElectionEnv
      [WithElection "/leader".toList, WithProposal "node-1".toList,
       WithCallback (some fun _ => some (.msg "boom"))]).1
      ⟨by decide, rfl⟩,
   (Campaign_callback_phase exampleElectionEnv
      [WithElection "/leader".toList, WithProposal "node-1".toList,
       WithCallback (some fun _ => some (.msg "boom"))]).2.2
      (fun _ => some (.msg "boom")) (.msg "boom") rfl (by decide) rfl⟩

end Etcd
